import Mathlib

/-!
# Verification of the rdbc-postgres driver (`rdbc-postgres/src/lib.rs`)

Shallow embedding of the driver's pure logic:

* the placeholder-rewriting pipeline inside `PConnection::prepare`
  (tokenize, map `Token::Char('?')` to `Token::Word("$n")`, re-join);
* the value marshalling `to_postgres_value`;
* the materialized cursor `PResultSet` with `next`, `get_i32`, `get_string`.

The SQL tokenizer (the `sqlparser` crate) and the Postgres wire client (the
`postgres` crate) are external collaborators of this repository: the
tokenizer is modelled by its output (an ordered, lossless token sequence, or
a tokenizer error), and per-column value extraction is modelled from the
spec's contract for the vendor collaborator.  Everything between those two
boundaries is translated directly from the source.
-/

namespace Rdbc

/-- Lexical whitespace categories of the tokenizer's `Whitespace` type
(the ones whose rendering we need). -/
inductive Wspace where
  | space
  | newline
  | tab
  deriving DecidableEq, Repr

/-- The tokenizer's `Token` type (the constructors relevant to this driver):
words/identifiers (with optional quote style and recognized-keyword tag),
numbers, single-quoted string literals, single characters (the category a
standalone `?` falls into), punctuation, and whitespace.  Rendering a token
and concatenating in order reproduces the source text (lossless tokenizer
contract). -/
inductive Token where
  | word (value : String) (quoteStyle : Option Char) (keyword : String)
  | number (s : String)
  | singleQuotedString (s : String)
  | char (c : Char)
  | comma
  | eq
  | lparen
  | rparen
  | ws (w : Wspace)
  deriving DecidableEq, Repr

/-- Rendering of one token back to SQL text (the tokenizer's `Display`
implementation, used by `prepare` via `format!("{}", t)`). -/
def tokenToString : Token → String
  | .word v none _ => v
  | .word v (some q) _ => String.singleton q ++ v ++ String.singleton q
  | .number s => s
  | .singleQuotedString s => "'" ++ s ++ "'"
  | .char c => String.singleton c
  | .comma => ","
  | .eq => "="
  | .lparen => "("
  | .rparen => ")"
  | .ws .space => " "
  | .ws .newline => "\n"
  | .ws .tab => "\t"

/-- `tokens.iter().map(|t| format!("{}", t)).collect::<Vec<String>>().join("")`
from `PConnection::prepare`. -/
def tokensToString (ts : List Token) : String :=
  String.join (ts.map tokenToString)

/-- `format!("${}", i)`: the Postgres-native positional placeholder text. -/
def placeholderText (n : Nat) : String :=
  "$" ++ Nat.repr n

/-- The replacement token built in `prepare`:
`Token::Word(Word { value: format!("${}", i), quote_style: None, keyword: "".to_owned() })`. -/
def placeholderWord (n : Nat) : Token :=
  Token.word (placeholderText n) none ""

/-- The rewriting map of `PConnection::prepare`: the counter `i` starts at 0;
each `Token::Char(c)` with `c == '?'` increments it and becomes
`placeholderWord i`; every other token passes through (`t.clone()`). -/
def rewriteAux (i : Nat) : List Token → List Token
  | [] => []
  | t :: ts =>
    if t = Token.char '?' then
      placeholderWord (i + 1) :: rewriteAux (i + 1) ts
    else
      t :: rewriteAux i ts

/-- The full token-level rewrite of `prepare` (counter starting at 0). -/
def rewriteTokens (ts : List Token) : List Token :=
  rewriteAux 0 ts

/-- Number of standalone neutral placeholder tokens (`Token::Char('?')`),
i.e. occurrences of `?` outside quoted literals in the tokenized SQL. -/
def countQ : List Token → Nat
  | [] => 0
  | t :: ts => (if t = Token.char '?' then 1 else 0) + countQ ts

/-- Outcome of `PConnection::prepare` as observable from outside: the code
either panics (a `.unwrap()` on the tokenizer result) or produces a
statement holding the rewritten SQL text.  No variant returns an error:
`prepare`'s only `Err` path would be in code it never takes. -/
inductive PrepareOutcome where
  | panicked
  | prepared (sql : String)
  deriving DecidableEq, Repr

/-- `PConnection::prepare`, parameterized by the tokenizer collaborator's
result on the input SQL (`tokenizer.tokenize()` returns
`Result<Vec<Token>, TokenizerError>`).  The source calls `.unwrap()` on it:
an `Err` from the tokenizer panics; an `Ok` token list is rewritten and
re-joined into the statement's SQL text. -/
def prepare (tok : Except String (List Token)) : PrepareOutcome :=
  match tok with
  | .error _ => PrepareOutcome.panicked
  | .ok ts => PrepareOutcome.prepared (tokensToString (rewriteTokens ts))

/-- Tokenization of `SELECT '?' FROM t WHERE c = ?` under the
`PostgreSqlDialect` lexical rules (the spec's tokenizer contract: a `?`
inside a single-quoted literal is part of that literal token; a standalone
`?` is a single-character token). -/
def exampleTokens : List Token :=
  [ Token.word "SELECT" none "SELECT", Token.ws Wspace.space,
    Token.singleQuotedString "?", Token.ws Wspace.space,
    Token.word "FROM" none "FROM", Token.ws Wspace.space,
    Token.word "t" none "", Token.ws Wspace.space,
    Token.word "WHERE" none "WHERE", Token.ws Wspace.space,
    Token.word "c" none "", Token.ws Wspace.space,
    Token.eq, Token.ws Wspace.space,
    Token.char '?' ]

/-- `rdbc::Value`: the closed tagged value union (`String`, `Int32`,
`UInt32`).  No arithmetic is performed on the payloads, so `i32` is carried
as `Int` and `u32` as `Nat`. -/
inductive Value where
  | str (s : String)
  | int32 (n : Int)
  | uint32 (n : Nat)
  deriving DecidableEq, Repr

/-- The vendor-native parameter-binding types produced by
`to_postgres_value`: a boxed native string, a native 32-bit signed integer,
or a native 32-bit unsigned integer. -/
inductive NativeParam where
  | nativeString (s : String)
  | nativeInt32 (n : Int)
  | nativeUInt32 (n : Nat)
  deriving DecidableEq, Repr

/-- The per-value marshalling arm of `to_postgres_value`:
`String(s) => Box::new(s.clone())`, `Int32(n) => Box::new(*n)`,
`UInt32(n) => Box::new(*n)`. -/
def toNativeParam : Value → NativeParam
  | .str s => NativeParam.nativeString s
  | .int32 n => NativeParam.nativeInt32 n
  | .uint32 n => NativeParam.nativeUInt32 n

/-- `to_postgres_value`: element-wise marshalling of the parameter sequence
(`values.iter().map(...).collect()`). -/
def to_postgres_value (values : List Value) : List NativeParam :=
  values.map toNativeParam

/-- Modelled from the spec: `from_native`, the vendor collaborator's
unmarshalling of a bound native parameter back through the corresponding
typed accessor (`postgres` crate code, not part of this repository).  The
spec requires each native type to read back as the Value variant it was
marshalled from. -/
def from_native : NativeParam → Value
  | .nativeString s => Value.str s
  | .nativeInt32 n => Value.int32 n
  | .nativeUInt32 n => Value.uint32 n

/-- A vendor-native column value inside a materialized row: SQL `NULL`, a
native 32-bit integer, a native string, or a value of some other native
type (not representable as either accessor's target). -/
inductive NativeCell where
  | null
  | cellInt32 (n : Int)
  | cellString (s : String)
  | cellOther
  deriving DecidableEq, Repr

/-- Modelled from the spec: the vendor collaborator's typed extraction of
one column as a 32-bit integer (`row.get::<_, Option<i32>>` in the source's
`get_i32`).  Per the spec's from-native contract it returns an absent value
if the column is `NULL` or the native value cannot be represented in the
requested type. -/
def cellToI32 : NativeCell → Option Int
  | .cellInt32 n => some n
  | _ => none

/-- Modelled from the spec: the vendor collaborator's typed extraction of
one column as a string (`row.get::<_, Option<String>>` in the source's
`get_string`), absent on `NULL` or an unrepresentable native type. -/
def cellToString : NativeCell → Option String
  | .cellString s => some s
  | _ => none

/-- Result of one accessor call: either the process panicked (unsigned
underflow of `self.i - 1` in a debug build, or the vendor library's
out-of-range row/column index panic that the wrapped-around index hits in a
release build), or an `Option` value was returned. -/
inductive GetResult (α : Type) where
  | panicked
  | ok (v : Option α)
  deriving DecidableEq, Repr

/-- `PResultSet`: the zero-based cursor `i: usize` and the owned
materialized rows (`postgres::rows::Rows`, modelled as the list of rows it
contains, each row the list of its column values). -/
structure PResultSet where
  i : Nat
  rows : List (List NativeCell)
  deriving DecidableEq, Repr

/-- `PResultSet::next`: `if self.i < self.rows.len() { self.i = self.i + 1;
true } else { false }`.  Rust mutates `self`; modelled as returning the
result together with the updated state. -/
def PResultSet.next (rs : PResultSet) : Bool × PResultSet :=
  if rs.i < rs.rows.length then
    (true, { rs with i := rs.i + 1 })
  else
    (false, rs)

/-- `PResultSet::get_i32(i)`: `self.rows.get(self.i - 1).get(i - 1)`.
Both subtractions are on `usize`: when the minuend is 0 the call panics
(debug: subtract-with-overflow; release: the wrapped index `usize::MAX` is
out of range for the vendor's `Rows::get`/`Row::get`, which panic on an
out-of-range index).  An out-of-range row or column index likewise panics
inside the vendor library.  In-range extraction is `cellToI32`. -/
def PResultSet.get_i32 (rs : PResultSet) (c : Nat) : GetResult Int :=
  if rs.i = 0 then GetResult.panicked
  else
    match rs.rows[rs.i - 1]? with
    | none => GetResult.panicked
    | some row =>
      if c = 0 then GetResult.panicked
      else
        match row[c - 1]? with
        | none => GetResult.panicked
        | some cell => GetResult.ok (cellToI32 cell)

/-- `PResultSet::get_string(i)`: same shape as `get_i32` with the string
extraction. -/
def PResultSet.get_string (rs : PResultSet) (c : Nat) : GetResult String :=
  if rs.i = 0 then GetResult.panicked
  else
    match rs.rows[rs.i - 1]? with
    | none => GetResult.panicked
    | some row =>
      if c = 0 then GetResult.panicked
      else
        match row[c - 1]? with
        | none => GetResult.panicked
        | some cell => GetResult.ok (cellToString cell)

/-- The result-set construction in `PStatement::execute_query`:
`PResultSet { i: 0, rows }`. -/
def executeQueryRS (rows : List (List NativeCell)) : PResultSet :=
  { i := 0, rows := rows }

/-- State of the cursor after `k` calls to `next` (discarding the returned
booleans). -/
def stateAfter (rs : PResultSet) : Nat → PResultSet
  | 0 => rs
  | k + 1 => stateAfter (rs.next).2 k

/-- Result of the `k`-th call to `next` (1-based) on a freshly constructed
result set over `rows`. -/
def nthNextResult (rows : List (List NativeCell)) (k : Nat) : Bool :=
  ((stateAfter (executeQueryRS rows) (k - 1)).next).1

/-! ## Helper lemmas about the rewriter -/

theorem rewriteAux_length (ts : List Token) : ∀ i, (rewriteAux i ts).length = ts.length := by
  induction ts with
  | nil => intro i; rfl
  | cons t ts ih =>
    intro i
    by_cases ht : t = Token.char '?' <;> simp [rewriteAux, ht, ih]

theorem rewriteAux_get_q (ts : List Token) :
    ∀ i j, ts[j]? = some (Token.char '?') →
      (rewriteAux i ts)[j]? = some (placeholderWord (i + countQ (ts.take j) + 1)) := by
  induction ts with
  | nil => intro i j h; simp at h
  | cons t ts ih =>
    intro i j h
    cases j with
    | zero =>
      simp at h
      subst h
      simp [rewriteAux, countQ]
    | succ j =>
      simp only [List.getElem?_cons_succ] at h
      by_cases ht : t = Token.char '?'
      · subst ht
        rw [rewriteAux, if_pos rfl]
        rw [List.getElem?_cons_succ, ih (i + 1) j h, List.take_succ_cons]
        congr 2
        simp [countQ]
        omega
      · rw [rewriteAux, if_neg ht]
        rw [List.getElem?_cons_succ, ih i j h, List.take_succ_cons]
        congr 2
        simp only [countQ, if_neg ht]
        omega

theorem rewriteAux_get_nq (ts : List Token) :
    ∀ (i j : Nat) (t : Token), ts[j]? = some t → t ≠ Token.char '?' →
      (rewriteAux i ts)[j]? = some t := by
  induction ts with
  | nil => intro i j t h _; simp at h
  | cons u ts ih =>
    intro i j t h hne
    cases j with
    | zero =>
      simp at h
      subst h
      rw [rewriteAux, if_neg hne]
      simp
    | succ j =>
      simp only [List.getElem?_cons_succ] at h
      by_cases hu : u = Token.char '?'
      · rw [rewriteAux, if_pos hu]
        simpa using ih (i + 1) j t h hne
      · rw [rewriteAux, if_neg hu]
        simpa using ih i j t h hne

theorem placeholderWord_ne_q (n : Nat) : placeholderWord n ≠ Token.char '?' := by
  simp [placeholderWord]

theorem rewriteAux_no_q (ts : List Token) :
    ∀ i t, t ∈ rewriteAux i ts → t ≠ Token.char '?' := by
  induction ts with
  | nil => intro i t h; simp [rewriteAux] at h
  | cons u ts ih =>
    intro i t h
    by_cases hu : u = Token.char '?'
    · rw [rewriteAux, if_pos hu] at h
      rcases List.mem_cons.mp h with h | h
      · exact h ▸ placeholderWord_ne_q (i + 1)
      · exact ih (i + 1) t h
    · rw [rewriteAux, if_neg hu] at h
      rcases List.mem_cons.mp h with h | h
      · exact h ▸ hu
      · exact ih i t h

theorem countQ_rewriteAux (ts : List Token) : ∀ i, countQ (rewriteAux i ts) = 0 := by
  induction ts with
  | nil => intro i; rfl
  | cons u ts ih =>
    intro i
    by_cases hu : u = Token.char '?'
    · rw [rewriteAux, if_pos hu, countQ, if_neg (placeholderWord_ne_q (i + 1)), ih (i + 1)]
    · rw [rewriteAux, if_neg hu, countQ, if_neg hu, ih i]

theorem rewriteAux_of_countQ_zero (ts : List Token) (h : countQ ts = 0) :
    ∀ i, rewriteAux i ts = ts := by
  induction ts with
  | nil => intro i; rfl
  | cons u ts ih =>
    intro i
    rw [countQ] at h
    by_cases hu : u = Token.char '?'
    · rw [if_pos hu] at h; omega
    · rw [if_neg hu] at h
      rw [rewriteAux, if_neg hu, ih (by omega) i]

/-! ## Helper lemmas about the cursor -/

theorem next_of_lt (rs : PResultSet) (h : rs.i < rs.rows.length) :
    rs.next = (true, { rs with i := rs.i + 1 }) := by
  simp [PResultSet.next, h]

theorem next_of_not_lt (rs : PResultSet) (h : ¬ rs.i < rs.rows.length) :
    rs.next = (false, rs) := by
  simp [PResultSet.next, h]

theorem next_false_iff (rs : PResultSet) :
    (rs.next).1 = false ↔ ¬ rs.i < rs.rows.length := by
  by_cases h : rs.i < rs.rows.length <;> simp [PResultSet.next, h]

theorem stateAfter_fixed (rs : PResultSet) (h : rs.next = (false, rs)) :
    ∀ k, stateAfter rs k = rs := by
  intro k
  induction k with
  | zero => rfl
  | succ k ih => rw [stateAfter, h]; exact ih

theorem stateAfter_state (rows : List (List NativeCell)) :
    ∀ k i, i ≤ rows.length →
      stateAfter ⟨i, rows⟩ k = ⟨min (i + k) rows.length, rows⟩ := by
  intro k
  induction k with
  | zero =>
    intro i h
    simp only [stateAfter]
    congr 1
    omega
  | succ k ih =>
    intro i h
    rw [stateAfter]
    by_cases hi : i < rows.length
    · rw [next_of_lt ⟨i, rows⟩ hi]
      rw [ih (i + 1) (by omega)]
      congr 1
      omega
    · rw [next_of_not_lt ⟨i, rows⟩ hi]
      rw [ih i h]
      congr 1
      omega

/-- Tokenization of `(?,?)`: two standalone placeholders adjacent to
punctuation. -/
def c1Tokens : List Token :=
  [Token.lparen, Token.char '?', Token.comma, Token.char '?', Token.rparen]

/-- Tokenization of `SELECT 1`: no placeholder. -/
def c8Tokens : List Token :=
  [Token.word "SELECT" none "SELECT", Token.ws Wspace.space, Token.number "1"]

/-! ## Claims -/

/-- C1: for a tokenized SQL input with `k` occurrences of `?` outside quoted
literals (`k = countQ ts`, the number of `Token.char '?'` tokens), the
rewrite preserves length, replaces the `j`-th token by the native
placeholder whose ordinal is 1 + the number of `?` tokens before position
`j` — so the placeholders read `$1..$k` in left-to-right source order,
starting at 1, strictly increasing, with no gaps and no reuse — leaves every
other token unchanged, and leaves no occurrence of the neutral `?`
marker. -/
theorem placeholder_rewrite_correct (ts : List Token) :
    ((rewriteTokens ts).length = ts.length) ∧
    (∀ j : Nat, ts[j]? = some (Token.char '?') →
      (rewriteTokens ts)[j]? = some (placeholderWord (countQ (ts.take j) + 1))) ∧
    (∀ (j : Nat) (t : Token), ts[j]? = some t → t ≠ Token.char '?' →
      (rewriteTokens ts)[j]? = some t) ∧
    (∀ t ∈ rewriteTokens ts, t ≠ Token.char '?') ∧
    countQ (rewriteTokens ts) = 0 := by
  refine ⟨rewriteAux_length ts 0, ?_, ?_, ?_, countQ_rewriteAux ts 0⟩
  · intro j h
    simpa using rewriteAux_get_q ts 0 j h
  · intro j t h hne
    exact rewriteAux_get_nq ts 0 j t h hne
  · intro t h
    exact rewriteAux_no_q ts 0 t h

/-- C1 witness: on the tokens of `(?,?)`, the two placeholders become `$1`
and `$2` and the comma passes through. -/
theorem placeholder_rewrite_correct_witness :
    (rewriteTokens c1Tokens)[1]? = some (placeholderWord 1) ∧
    (rewriteTokens c1Tokens)[3]? = some (placeholderWord 2) ∧
    (rewriteTokens c1Tokens)[2]? = some Token.comma := by
  refine ⟨?_, ?_, ?_⟩
  · exact (placeholder_rewrite_correct c1Tokens).2.1 1 rfl
  · exact (placeholder_rewrite_correct c1Tokens).2.1 3 rfl
  · exact (placeholder_rewrite_correct c1Tokens).2.2.1 2 Token.comma rfl (by decide)

/-- C3: a `?` inside a quoted string or identifier literal is a literal
token, and the rewrite maps every single-quoted-string token and every
quoted-word token to itself; on the tokens of
`SELECT '?' FROM t WHERE c = ?` the rewrite yields exactly one native
placeholder (ordinal 1) and reproduces the literal `'?'` unchanged, the
output text being `SELECT '?' FROM t WHERE c = $1`. -/
theorem literal_preservation (ts : List Token) :
    (∀ (j : Nat) (s : String), ts[j]? = some (Token.singleQuotedString s) →
        (rewriteTokens ts)[j]? = some (Token.singleQuotedString s)) ∧
    (∀ (j : Nat) (v : String) (q : Char) (kw : String),
        ts[j]? = some (Token.word v (some q) kw) →
        (rewriteTokens ts)[j]? = some (Token.word v (some q) kw)) ∧
    tokensToString exampleTokens = "SELECT '?' FROM t WHERE c = ?" ∧
    countQ exampleTokens = 1 ∧
    rewriteTokens exampleTokens =
      [ Token.word "SELECT" none "SELECT", Token.ws Wspace.space,
        Token.singleQuotedString "?", Token.ws Wspace.space,
        Token.word "FROM" none "FROM", Token.ws Wspace.space,
        Token.word "t" none "", Token.ws Wspace.space,
        Token.word "WHERE" none "WHERE", Token.ws Wspace.space,
        Token.word "c" none "", Token.ws Wspace.space,
        Token.eq, Token.ws Wspace.space,
        placeholderWord 1 ] ∧
    tokensToString (rewriteTokens exampleTokens) = "SELECT '?' FROM t WHERE c = $1" := by
  refine ⟨?_, ?_, by decide, by decide, by decide, by decide⟩
  · intro j s h
    exact rewriteAux_get_nq ts 0 j _ h (by simp)
  · intro j v q kw h
    exact rewriteAux_get_nq ts 0 j _ h (by simp)

/-- C3 witness: the literal `'?'` token of the example survives the rewrite
at its position. -/
theorem literal_preservation_witness :
    (rewriteTokens exampleTokens)[2]? = some (Token.singleQuotedString "?") :=
  (literal_preservation exampleTokens).1 2 "?" rfl

/-- C2 (code bug): `prepare` calls `tokenizer.tokenize().unwrap()`, so a
tokenization failure (e.g. the unterminated literal in `SELECT 'abc`)
panics the process instead of returning the `SyntaxError` value the spec
requires; no statement is produced and nothing reaches the backend, but no
error value reaches the caller either. -/
theorem prepare_panics_on_tokenizer_error :
    prepare (Except.error "Unterminated string literal in SELECT 'abc") =
        PrepareOutcome.panicked ∧
    ∀ e : String, prepare (Except.error e) = PrepareOutcome.panicked :=
  ⟨rfl, fun _ => rfl⟩

/-- C8: on a token sequence with zero placeholders the rewrite is the
identity, so the re-rendered output has the very same token sequence (and
hence the same text) as the input. -/
theorem rewrite_identity_on_no_placeholder (ts : List Token) (h : countQ ts = 0) :
    rewriteTokens ts = ts ∧ tokensToString (rewriteTokens ts) = tokensToString ts := by
  have h1 : rewriteTokens ts = ts := rewriteAux_of_countQ_zero ts h 0
  exact ⟨h1, by rw [h1]⟩

/-- C8 witness: the tokens of `SELECT 1` are left untouched. -/
theorem rewrite_identity_on_no_placeholder_witness :
    countQ c8Tokens = 0 ∧ rewriteTokens c8Tokens = c8Tokens :=
  ⟨by decide, (rewrite_identity_on_no_placeholder c8Tokens (by decide)).1⟩

/-- C5: `execute_query` builds the result set with the cursor before the
first row (`i = 0`); `next` advances the cursor by one row exactly when a
row remains and reports whether a row is now positioned; hence on `m` rows
the `k`-th call (1-based) returns `true` precisely for `k ≤ m`, i.e. the
first `m` calls return `true` and every later call returns `false`
(terminal, not resettable). -/
theorem cursor_advance_spec (rows : List (List NativeCell)) (rs : PResultSet)
    (k : Nat) (hk : 1 ≤ k) :
    (executeQueryRS rows).i = 0 ∧
    (rs.i < rs.rows.length → (rs.next).1 = true ∧ (rs.next).2.i = rs.i + 1) ∧
    (¬ rs.i < rs.rows.length → (rs.next).1 = false ∧ (rs.next).2 = rs) ∧
    nthNextResult rows k = decide (k ≤ rows.length) := by
  refine ⟨rfl, ?_, ?_, ?_⟩
  · intro h
    rw [next_of_lt rs h]
    exact ⟨rfl, rfl⟩
  · intro h
    rw [next_of_not_lt rs h]
    exact ⟨rfl, rfl⟩
  · unfold nthNextResult executeQueryRS
    rw [stateAfter_state rows (k - 1) 0 (by omega)]
    by_cases h : k ≤ rows.length
    · rw [next_of_lt _ (show min (0 + (k - 1)) rows.length < rows.length by omega)]
      simp [h]
    · rw [next_of_not_lt _ (show ¬ min (0 + (k - 1)) rows.length < rows.length by omega)]
      simp [h]

/-- C5 witness: on one row, the first call to `next` returns `true` and the
second returns `false`. -/
theorem cursor_advance_spec_witness :
    nthNextResult [[NativeCell.cellInt32 123]] 1 = true ∧
    nthNextResult [[NativeCell.cellInt32 123]] 2 = false := by
  have h1 := (cursor_advance_spec [[NativeCell.cellInt32 123]]
    (executeQueryRS [[NativeCell.cellInt32 123]]) 1 (by omega)).2.2.2
  have h2 := (cursor_advance_spec [[NativeCell.cellInt32 123]]
    (executeQueryRS [[NativeCell.cellInt32 123]]) 2 (by omega)).2.2.2
  exact ⟨by rw [h1]; decide, by rw [h2]; decide⟩

/-- C10: the invariant `0 ≤ i ≤ rows.len()` holds at construction (`i = 0`)
and is preserved by `next`, the only mutating operation; and whenever
`next` returns `true`, `1 ≤ i ≤ rows.len()` holds in the updated state and
the row read by the accessors at index `i - 1` exists in the materialized
row set. -/
theorem cursor_invariant (rows : List (List NativeCell)) (rs : PResultSet)
    (h : rs.i ≤ rs.rows.length) :
    ((executeQueryRS rows).i = 0 ∧
      (executeQueryRS rows).i ≤ (executeQueryRS rows).rows.length) ∧
    ((rs.next).2.i ≤ (rs.next).2.rows.length) ∧
    ((rs.next).1 = true →
      1 ≤ (rs.next).2.i ∧
      ∃ row, (rs.next).2.rows[(rs.next).2.i - 1]? = some row) := by
  refine ⟨⟨rfl, by simp [executeQueryRS]⟩, ?_, ?_⟩
  · by_cases hi : rs.i < rs.rows.length
    · rw [next_of_lt rs hi]
      show rs.i + 1 ≤ rs.rows.length
      omega
    · rw [next_of_not_lt rs hi]
      exact h
  · intro htrue
    by_cases hi : rs.i < rs.rows.length
    · rw [next_of_lt rs hi]
      refine ⟨by show 1 ≤ rs.i + 1; omega, ?_⟩
      show ∃ row, rs.rows[rs.i + 1 - 1]? = some row
      simp only [Nat.add_sub_cancel]
      exact ⟨rs.rows[rs.i], List.getElem?_eq_getElem hi⟩
    · rw [next_of_not_lt rs hi] at htrue
      simp at htrue

/-- C10 witness: on one row from the initial state, `next` returns `true`
and the updated state satisfies the consequent. -/
theorem cursor_invariant_witness :
    1 ≤ (((⟨0, [[NativeCell.null]]⟩ : PResultSet).next).2).i ∧
    ∃ row,
      (((⟨0, [[NativeCell.null]]⟩ : PResultSet).next).2).rows[
        (((⟨0, [[NativeCell.null]]⟩ : PResultSet).next).2).i - 1]? = some row :=
  (cursor_invariant [] ⟨0, [[NativeCell.null]]⟩ (by decide)).2.2 (by decide)

/-- C9: whenever the cursor is still at position 0 (before any successful
`next`, including an empty result set on which `next` has already returned
`false`), `get_i32` and `get_string` are not total: `self.i - 1` underflows
on `usize` and the call panics. -/
theorem accessor_underflow_at_start (rs : PResultSet) (h : rs.i = 0) (c : Nat) :
    rs.get_i32 c = GetResult.panicked ∧
    rs.get_string c = GetResult.panicked ∧
    (rs.rows = [] →
      (rs.next).1 = false ∧ ((rs.next).2).get_i32 c = GetResult.panicked) := by
  refine ⟨?_, ?_, ?_⟩
  · rw [PResultSet.get_i32, if_pos h]
  · rw [PResultSet.get_string, if_pos h]
  · intro hrows
    have hn : rs.next = (false, rs) := next_of_not_lt rs (by simp [h, hrows])
    rw [hn]
    exact ⟨rfl, by rw [PResultSet.get_i32, if_pos h]⟩

/-- C9 witness: on a fresh one-row result set, `get_i32 1` panics. -/
theorem accessor_underflow_at_start_witness :
    (⟨0, [[NativeCell.cellInt32 5]]⟩ : PResultSet).get_i32 1 = GetResult.panicked :=
  (accessor_underflow_at_start ⟨0, [[NativeCell.cellInt32 5]]⟩ rfl 1).1

/-- Fresh result set over one row holding the integer 123 (the worked
example's data). -/
def c4RS : PResultSet := executeQueryRS [[NativeCell.cellInt32 123]]

/-- C4 counterexample: on a one-row result set, `next` returns `true` then
`false`; after `next` has first returned `false`, `get_i32 1` still returns
the non-absent value `123` tied to the prior (last) row — refuting the
claim that no accessor call after that point returns a non-absent value
tied to a prior row. -/
theorem cursor_accessor_after_exhaustion :
    ((c4RS.next).1 = true) ∧
    (((c4RS.next).2.next).1 = false) ∧
    (((c4RS.next).2.next).2.get_i32 1 = GetResult.ok (some 123)) := by
  decide

/-- C4 amended: once `next` has first returned `false` the state never
changes again, so every subsequent call to `next` also returns `false`;
accessor calls after that point are not blocked, however: they behave
exactly as in the state in which `next` first returned `false` (reading row
`i - 1`, the last consumed row — non-absent for a non-null cell — or
panicking when no row was ever positioned). -/
theorem cursor_terminal_idempotence (rs : PResultSet) (h : (rs.next).1 = false)
    (k c : Nat) :
    ((stateAfter rs k).next).1 = false ∧
    (stateAfter rs k).get_i32 c = rs.get_i32 c ∧
    (stateAfter rs k).get_string c = rs.get_string c := by
  have hfix : rs.next = (false, rs) := next_of_not_lt rs ((next_false_iff rs).mp h)
  have hst : stateAfter rs k = rs := stateAfter_fixed rs hfix k
  rw [hst]
  exact ⟨by rw [hfix], rfl, rfl⟩

/-- C4 amended witness: an exhausted one-row result set keeps answering
`false` after five more calls. -/
theorem cursor_terminal_idempotence_witness :
    ((stateAfter (⟨1, [[NativeCell.cellInt32 123]]⟩ : PResultSet) 5).next).1 = false :=
  (cursor_terminal_idempotence ⟨1, [[NativeCell.cellInt32 123]]⟩ (by decide) 5 1).1

/-- C6: marshalling any Value variant to its vendor-native parameter type
and reading it back through the corresponding typed accessor yields the
value exactly (`String "x"`, `Int32 123`, `UInt32 7` included); each
variant maps to exactly one native type and `to_postgres_value` preserves
the input sequence 1:1 (same length, `j`-th native parameter marshalled
from the `j`-th value). -/
theorem value_marshalling_round_trip :
    (∀ v : Value, from_native (toNativeParam v) = v) ∧
    from_native (toNativeParam (Value.str "x")) = Value.str "x" ∧
    from_native (toNativeParam (Value.int32 123)) = Value.int32 123 ∧
    from_native (toNativeParam (Value.uint32 7)) = Value.uint32 7 ∧
    (∀ vs : List Value, (to_postgres_value vs).length = vs.length) ∧
    (∀ (vs : List Value) (j : Nat),
      (to_postgres_value vs)[j]? = (vs[j]?).map toNativeParam) := by
  refine ⟨?_, rfl, rfl, rfl, ?_, ?_⟩
  · intro v
    cases v <;> rfl
  · intro vs
    simp [to_postgres_value]
  · intro vs j
    simp [to_postgres_value]

/-- C7: for a positioned row (`1 ≤ i` with the row at `i - 1` materialized)
and an in-range 1-based column index, the typed accessors return an absent
value (`ok none`, never a panic/error) when the column is `NULL` or the
native value is not representable in the requested type, and a present
value otherwise; an out-of-range column index — a structural error —
propagates (panics inside the vendor library) instead. -/
theorem typed_accessor_absent_vs_structural (rs : PResultSet)
    (row : List NativeCell) (c : Nat) (hi : 1 ≤ rs.i)
    (hrow : rs.rows[rs.i - 1]? = some row) (hc : 1 ≤ c) :
    (∀ cell, row[c - 1]? = some cell →
        rs.get_i32 c = GetResult.ok (cellToI32 cell) ∧
        rs.get_string c = GetResult.ok (cellToString cell) ∧
        rs.get_i32 c ≠ GetResult.panicked ∧
        rs.get_string c ≠ GetResult.panicked ∧
        (cell = NativeCell.null →
          rs.get_i32 c = GetResult.ok none ∧ rs.get_string c = GetResult.ok none) ∧
        (∀ s, cell = NativeCell.cellString s → rs.get_i32 c = GetResult.ok none)) ∧
    (row[c - 1]? = none →
        rs.get_i32 c = GetResult.panicked ∧
        rs.get_string c = GetResult.panicked) := by
  have h0 : ¬ rs.i = 0 := by omega
  have hc0 : ¬ c = 0 := by omega
  constructor
  · intro cell hcell
    have hgi : rs.get_i32 c = GetResult.ok (cellToI32 cell) := by
      simp only [PResultSet.get_i32, if_neg h0, hrow, if_neg hc0, hcell]
    have hgs : rs.get_string c = GetResult.ok (cellToString cell) := by
      simp only [PResultSet.get_string, if_neg h0, hrow, if_neg hc0, hcell]
    refine ⟨hgi, hgs, by simp [hgi], by simp [hgs], ?_, ?_⟩
    · intro hnull
      subst hnull
      exact ⟨hgi, hgs⟩
    · intro s hs
      subst hs
      exact hgi
  · intro hnone
    constructor
    · simp only [PResultSet.get_i32, if_neg h0, hrow, if_neg hc0, hnone]
    · simp only [PResultSet.get_string, if_neg h0, hrow, if_neg hc0, hnone]

/-- C7 witness: on a positioned row `[NULL, 5]`, reading column 1 as i32
yields the absent value (no panic), and reading column 3 — out of range —
panics. -/
theorem typed_accessor_absent_vs_structural_witness :
    (⟨1, [[NativeCell.null, NativeCell.cellInt32 5]]⟩ : PResultSet).get_i32 1 =
      GetResult.ok none ∧
    (⟨1, [[NativeCell.null, NativeCell.cellInt32 5]]⟩ : PResultSet).get_i32 3 =
      GetResult.panicked := by
  constructor
  · exact ((typed_accessor_absent_vs_structural
      ⟨1, [[NativeCell.null, NativeCell.cellInt32 5]]⟩
      [NativeCell.null, NativeCell.cellInt32 5] 1 (by decide) (by decide)
      (by decide)).1 NativeCell.null (by decide)).2.2.2.2.1 rfl |>.1
  · exact ((typed_accessor_absent_vs_structural
      ⟨1, [[NativeCell.null, NativeCell.cellInt32 5]]⟩
      [NativeCell.null, NativeCell.cellInt32 5] 3 (by decide) (by decide)
      (by decide)).2 (by decide)).1

end Rdbc
